import Mathlib

set_option autoImplicit false

/-!
Shallow embedding of src/MutationObserver.js (the JsMutationObserver polyfill).

JS object identity, which the source leans on in three places — the prototype
chain of mutation records (Object.create / Object.getPrototypeOf in enqueue),
the identity of Registration objects, and the listener argument of
addEventListener / removeEventListener — is modelled by natural-number ids.
Mutable state (the registrations side table, per-node listener lists, each
observer's nodes_ and records_ arrays) is an explicit GlobalState record
threaded through the operations.
-/

namespace MutationObservers

/-- Observation options (MutationObserverInit). `attributeFilter = none` models
the field being absent (undefined) in the source. -/
structure Options where
  childList : Bool := false
  attributes : Bool := false
  characterData : Bool := false
  subtree : Bool := false
  attributeOldValue : Bool := false
  characterDataOldValue : Bool := false
  attributeFilter : Option (List String) := none
deriving DecidableEq, Repr

/-- The source's truthiness test `options.attributeFilter && options.attributeFilter.length`:
the filter is present and non-empty. -/
def filterNonempty (o : Options) : Bool :=
  match o.attributeFilter with
  | some fl => fl.length != 0
  | none => false

/-- The option validation at the top of observe (steps 1.1-1.4 in the source);
when this is true the source throws a SyntaxError before touching any state. -/
def invalidOptions (o : Options) : Bool :=
  (!o.childList && !o.attributes && !o.characterData) ||
  (o.attributeOldValue && !o.attributes) ||
  (filterNonempty o && !o.attributes) ||
  (o.characterDataOldValue && !o.characterData)

inductive RType where
  | attributes
  | characterData
deriving DecidableEq, Repr

/-- A mutation record. `rid` models JS object identity. The prototype chain set
up by `Object.create(record)` for the with-old-value record is modelled by
`base`: `base = some i` means this record's prototype is the record with
identity `i`; `base = none` means its prototype is mutationRecordPrototype. -/
structure MRecord where
  rid : Nat
  base : Option Nat
  type : RType
  target : Nat
  attributeName : Option String := none
  attributeNamespace : Option String := none
  oldValue : Option String := none
deriving DecidableEq, Repr

/-- Registration.prototype.enqueue acting on the observer's records_ array:
dedup against the last queued record using record identity and the prototype
(derivation) relation, else append. -/
def enqueueList (record : MRecord) (records : List MRecord) : List MRecord :=
  match records.getLast? with
  | some last =>
    if record.rid == last.rid || last.base == some record.rid then records
    else if record.base == some last.rid then records.dropLast ++ [record]
    else records ++ [record]
  | none => records ++ [record]

/-- A registered observer: (observer, target, options) plus an identity `id`
modelling the Registration object's JS identity. -/
structure Registration where
  observer : Nat
  target : Nat
  options : Options
  id : Nat
deriving DecidableEq, Repr

/-- The listener argument handed to addEventListener / removeEventListener:
in the source, addListeners passes `this` (the Registration object) while
removeListeners passes `this.observer` (the JsMutationObserver object). -/
inductive LKey where
  | regKey : Nat → LKey
  | obsKey : Nat → LKey
deriving DecidableEq, Repr

/-- One entry in a node's low-level listener list: (event type, listener
object, capture flag) as deduplicated by DOM addEventListener. -/
structure Listener where
  etype : String
  handler : LKey
  capture : Bool
deriving DecidableEq, Repr

/-- DOM addEventListener: no-op if an identical (type, listener, capture)
entry is already present, else append. -/
def addEventListener (ls : List Listener) (l : Listener) : List Listener :=
  if l ∈ ls then ls else ls ++ [l]

/-- DOM removeEventListener: remove the matching (type, listener, capture)
entry if present. -/
def removeEventListener (ls : List Listener) (l : Listener) : List Listener :=
  ls.filter (fun x => decide (x ≠ l))

/-- Point update of a Nat-indexed map. -/
def upd {α : Type} (f : Nat → α) (k : Nat) (v : α) : Nat → α :=
  fun n => if n = k then v else f n

/-- SideTable.get on the registrations table: `none` models a node with no
table entry. -/
def tableGet (t : List (Nat × List Registration)) (n : Nat) : Option (List Registration) :=
  match t with
  | [] => none
  | p :: rest => if p.1 = n then some p.2 else tableGet rest n

/-- SideTable.set on the registrations table. -/
def tableSet (t : List (Nat × List Registration)) (n : Nat) (v : List Registration) :
    List (Nat × List Registration) :=
  match t with
  | [] => [(n, v)]
  | p :: rest => if p.1 = n then (n, v) :: rest else p :: tableSet rest n v

/-- The whole mutable state of the module: the registrations side table,
each node's low-level listener list, and each observer's nodes_ and records_
arrays; `nextRegId` supplies fresh identities for new Registration objects. -/
structure GlobalState where
  table : List (Nat × List Registration)
  listeners : Nat → List Listener
  nodesOf : Nat → List Nat
  recordsOf : Nat → List MRecord
  nextRegId : Nat

/-- The node's registration list, `[]` when the side table has no entry
(the loops in the source only run when the entry exists). -/
def regsAt (st : GlobalState) (n : Nat) : List Registration :=
  (tableGet st.table n).getD []

/-- Registration.prototype.addListeners: attach `this` (the Registration) for
the event kinds the options watch. -/
def addListenersFn (r : Registration) (st : GlobalState) : GlobalState :=
  let st1 :=
    if r.options.attributes then
      let ls1 := addEventListener (st.listeners r.target) ⟨"DOMAttrModified", .regKey r.id, true⟩
      { st with listeners := upd st.listeners r.target ls1 }
    else st
  if r.options.characterData then
    let ls2 := addEventListener (st1.listeners r.target) ⟨"DOMCharacterDataModified", .regKey r.id, true⟩
    { st1 with listeners := upd st1.listeners r.target ls2 }
  else st1

/-- Registration.prototype.removeListeners: the source passes `this.observer`
(not `this`) as the listener argument to removeEventListener. -/
def removeListenersFn (r : Registration) (st : GlobalState) : GlobalState :=
  let st1 :=
    if r.options.attributes then
      let ls1 := removeEventListener (st.listeners r.target) ⟨"DOMAttrModified", .obsKey r.observer, true⟩
      { st with listeners := upd st.listeners r.target ls1 }
    else st
  if r.options.characterData then
    let ls2 := removeEventListener (st1.listeners r.target) ⟨"DOMCharacterDataModified", .obsKey r.observer, true⟩
    { st1 with listeners := upd st1.listeners r.target ls2 }
  else st1

/-- The replace-in-place loop of observe step 2: find the first registration
whose observer is `oid`; if found, return it (with its old options, as used by
removeListeners) together with the list where its options are replaced. -/
def replaceOrFind (oid : Nat) (o : Options) : List Registration →
    Option (Registration × List Registration)
  | [] => none
  | r :: rs =>
    if r.observer = oid then some (r, { r with options := o } :: rs)
    else match replaceOrFind oid o rs with
      | some (found, rs') => some (found, r :: rs')
      | none => none

/-- JsMutationObserver.prototype.observe for observer `oid` on node `target`:
validate options (error models the thrown SyntaxError, before any state
change), then either replace the existing registration's options in place
(removeListeners first, with the old options) or create a fresh Registration,
append it to the node's list and push target onto nodes_; finally addListeners. -/
def observeFn (oid : Nat) (target : Nat) (o : Options) (st : GlobalState) :
    Except Unit GlobalState :=
  if invalidOptions o then .error ()
  else
    let regs := regsAt st target
    match replaceOrFind oid o regs with
    | some (oldReg, regs') =>
      let st1 := removeListenersFn oldReg st
      let newReg := { oldReg with options := o }
      let st2 := { st1 with table := tableSet st1.table target regs' }
      .ok (addListenersFn newReg st2)
    | none =>
      let newReg : Registration := ⟨oid, target, o, st.nextRegId⟩
      let st2 := { st with
        table := tableSet st.table target (regs ++ [newReg]),
        nodesOf := upd st.nodesOf oid (st.nodesOf oid ++ [target]),
        nextRegId := st.nextRegId + 1 }
      .ok (addListenersFn newReg st2)

/-- The splice loop of disconnect: remove the first registration whose
observer is `oid`, returning it alongside the shortened list. -/
def removeFirstObs (oid : Nat) : List Registration →
    Option Registration × List Registration
  | [] => (none, [])
  | r :: rs =>
    if r.observer = oid then (some r, rs)
    else
      let p := removeFirstObs oid rs
      (p.1, r :: p.2)

/-- One iteration of disconnect's forEach body at `node`: if the node has a
table entry containing a registration of observer `oid`, removeListeners on it
and splice it out. -/
def disconnectNode (oid : Nat) (st : GlobalState) (node : Nat) : GlobalState :=
  match tableGet st.table node with
  | none => st
  | some regs =>
    match (removeFirstObs oid regs).1 with
    | none => st
    | some r =>
      let st1 := removeListenersFn r st
      { st1 with table := tableSet st1.table node (removeFirstObs oid regs).2 }

/-- JsMutationObserver.prototype.disconnect: run the splice loop at every node
in this observer's nodes_ list, then reset records_ to []. The source does
not clear nodes_. -/
def disconnectFn (oid : Nat) (st : GlobalState) : GlobalState :=
  let st1 := (st.nodesOf oid).foldl (disconnectNode oid) st
  { st1 with recordsOf := upd st1.recordsOf oid [] }

/-- JsMutationObserver.prototype.takeRecords: return records_ and swap in a
fresh empty array. -/
def takeRecordsFn (oid : Nat) (st : GlobalState) : List MRecord × GlobalState :=
  (st.recordsOf oid, { st with recordsOf := upd st.recordsOf oid [] })

/-- registration.enqueue(record): pushes through enqueueList onto the owning
observer's records_ array. -/
def enqueueRecord (oid : Nat) (record : MRecord) (st : GlobalState) : GlobalState :=
  { st with recordsOf := upd st.recordsOf oid (enqueueList record (st.recordsOf oid)) }

/-- The inner loop of forEachAncestorAndObserverEnqueueRecord at one visited
node: for each registration there, skip unless the node is the target or
options.subtree holds; otherwise invoke the callback and enqueue any record it
returns on that registration's observer. -/
def processNode (cb : Options → Option MRecord) (target node : Nat) (st : GlobalState) :
    GlobalState :=
  match tableGet st.table node with
  | none => st
  | some regs =>
    regs.foldl (fun s registration =>
      if node != target && !registration.options.subtree then s
      else
        match cb registration.options with
        | some record => enqueueRecord registration.observer record s
        | none => s) st

/-- forEachAncestorAndObserverEnqueueRecord: walk from `node` to the root via
`parent`, processing each visited node. `fuel` bounds the walk; with fuel at
least the depth of `node` this is the source's loop exactly (the source stops
when parentNode is null, here `parent = none`). -/
def dispatchFrom (parent : Nat → Option Nat) (cb : Options → Option MRecord)
    (target : Nat) : Nat → Nat → GlobalState → GlobalState
  | node, 0, st => processNode cb target node st
  | node, fuel + 1, st =>
    let st1 := processNode cb target node st
    match parent node with
    | some p => dispatchFrom parent cb target p fuel st1
    | none => st1

/-- The filter test of handleEvent steps 3.2/4.3: the filter is present and
non-empty, and indexOf finds neither the attribute's local name nor its
namespace URI (a null namespace is never found in a string array). -/
def attrFilterMiss (o : Options) (name : String) (namespaceURI : Option String) : Bool :=
  match o.attributeFilter with
  | some fl => fl.length != 0 && !fl.contains name &&
      !(match namespaceURI with
        | some ns => fl.contains ns
        | none => false)
  | none => false

/-- The record-builder closure for DOMAttrModified (handleEvent steps 3.1-3.4):
decline if attributes are not watched or the filter misses both the local name
and the namespace URI; return the with-old-value record if attributeOldValue,
else the plain record. -/
def attrCallback (name : String) (namespaceURI : Option String)
    (record recordWithOldValue : MRecord) (o : Options) : Option MRecord :=
  if !o.attributes then none
  else if attrFilterMiss o name namespaceURI then none
  else if o.attributeOldValue then some recordWithOldValue
  else some record

/-- The record-builder closure for DOMCharacterDataModified. -/
def charDataCallback (record recordWithOldValue : MRecord) (o : Options) : Option MRecord :=
  if !o.characterData then none
  else if o.characterDataOldValue then some recordWithOldValue
  else some record

/-- The attrChange field of a DOMAttrModified event. -/
inductive AttrChangeKind where
  | addition
  | modification
  | removal
deriving DecidableEq, Repr

/-- handleEvent steps 1-2 for DOMAttrModified: build the plain record and,
via Object.create(record), the extended record whose only own property is
oldValue — null when the change is an ADDITION, else the event's prevValue. -/
def mkAttrRecordPair (freshId : Nat) (target : Nat) (name : String)
    (namespaceURI : Option String) (change : AttrChangeKind) (prevValue : String) :
    MRecord × MRecord :=
  let record : MRecord :=
    { rid := freshId, base := none, type := .attributes, target := target,
      attributeName := some name, attributeNamespace := namespaceURI }
  let oldV : Option String :=
    match change with
    | .addition => none
    | _ => some prevValue
  let recordWithOldValue : MRecord :=
    { record with rid := freshId + 1, base := some freshId, oldValue := oldV }
  (record, recordWithOldValue)

/-- handleEvent steps 1-2 for DOMCharacterDataModified. -/
def mkCharDataRecordPair (freshId : Nat) (target : Nat) (prevValue : String) :
    MRecord × MRecord :=
  let record : MRecord := { rid := freshId, base := none, type := .characterData, target := target }
  (record, { record with rid := freshId + 1, base := some freshId, oldValue := some prevValue })

/-- The state at module load: empty side table, no listeners, every observer
with empty nodes_ and records_. -/
def emptyState : GlobalState :=
  { table := [], listeners := fun _ => [], nodesOf := fun _ => [],
    recordsOf := fun _ => [], nextRegId := 0 }

/-- The at-most-one-registration-per-observer invariant on the side table:
in every entry, the observers of the listed registrations are pairwise
distinct. -/
def TableInv (t : List (Nat × List Registration)) : Prop :=
  ∀ p ∈ t, (p.2.map (fun r => r.observer)).Nodup

instance (t : List (Nat × List Registration)) : Decidable (TableInv t) := by
  unfold TableInv; infer_instance

/-- Options watching only attributes. -/
def attrsOnlyOptions : Options := { attributes := true }

/-- Options watching attributes with the filter ["id"]. -/
def idFilterOptions : Options := { attributes := true, attributeFilter := some ["id"] }

/-- A two-node tree for the subtree scenario: node 2's parent is node 1,
node 1 is the root. -/
def scenarioParent : Nat → Option Nat := fun n => if n = 2 then some 1 else none

/-- Observer 0 registered on node 1 watching attributes, with the given
subtree option. -/
def scenarioReg (sub : Bool) : Registration :=
  ⟨0, 1, { attributes := true, subtree := sub }, 0⟩

/-- State where node 1 carries exactly the registration of `scenarioReg`. -/
def scenarioState (sub : Bool) : GlobalState :=
  { emptyState with table := [(1, [scenarioReg sub])] }

/-- The plain record of an attribute change on node 2. -/
def scenarioRec : MRecord := (mkAttrRecordPair 0 2 "id" none .modification "v").1

/-- The record builder of the DOMAttrModified handler for that change. -/
def scenarioCb : Options → Option MRecord :=
  attrCallback "id" none scenarioRec (mkAttrRecordPair 0 2 "id" none .modification "v").2

/-- Registration of observer 0 on node 1 (identity 0). -/
def regW0 : Registration := ⟨0, 1, attrsOnlyOptions, 0⟩

/-- Registration of observer 1 on node 1 (identity 1). -/
def regW1 : Registration := ⟨1, 1, attrsOnlyOptions, 1⟩

/-- A queued record for observer 0 in the concrete disconnect scenario. -/
def recW : MRecord := (mkAttrRecordPair 2 1 "id" none .modification "v").1

/-- A concrete state with observers 0 and 1 both registered on node 1 and a
record queued for observer 0. -/
def stW : GlobalState :=
  { table := [(1, [regW0, regW1])],
    listeners := fun _ => [],
    nodesOf := fun n => if n = 0 then [1] else [],
    recordsOf := fun n => if n = 0 then [recW] else [],
    nextRegId := 2 }

/-- Options watching attributes (with old values) and character data. -/
def bothOptions : Options :=
  { attributes := true, characterData := true, attributeOldValue := true }

/-- Options watching only character data, with old values. -/
def charDataOnlyOptions : Options :=
  { characterData := true, characterDataOldValue := true }

theorem upd_same {α : Type} (f : Nat → α) (k : Nat) (v : α) : upd f k v k = v := by
  simp [upd]

theorem upd_ne {α : Type} (f : Nat → α) (k : Nat) (v : α) {n : Nat} (h : n ≠ k) :
    upd f k v n = f n := by
  simp [upd, h]

/-- C1: Registration.enqueue appends to an empty queue; discards the incoming
record when it is identical to the last queued record or is the base record
from which the last was derived as its extended refinement; replaces the last
entry in place when the last is the base from which the incoming record was
derived; otherwise appends. The derivation relation compares record identity
(the prototype chain), not field values: the final conjunct appends two records
with identical field values but unrelated identities. -/
theorem enqueue_coalescing_spec (record last : MRecord) (rest : List MRecord) :
    (enqueueList record [] = [record]) ∧
    (record.rid = last.rid ∨ last.base = some record.rid →
      enqueueList record (rest ++ [last]) = rest ++ [last]) ∧
    (record.rid ≠ last.rid → last.base ≠ some record.rid → record.base = some last.rid →
      enqueueList record (rest ++ [last]) = rest ++ [record]) ∧
    (record.rid ≠ last.rid → last.base ≠ some record.rid → record.base ≠ some last.rid →
      enqueueList record (rest ++ [last]) = rest ++ [last, record]) ∧
    (enqueueList ⟨1, none, .attributes, 5, some "a", none, none⟩
        [⟨0, none, .attributes, 5, some "a", none, none⟩] =
      [⟨0, none, .attributes, 5, some "a", none, none⟩,
       ⟨1, none, .attributes, 5, some "a", none, none⟩]) := by
  have hlast : (rest ++ [last]).getLast? = some last := by
    simp
  have hdrop : (rest ++ [last]).dropLast = rest := by
    simp
  refine ⟨rfl, ?_, ?_, ?_, by decide⟩
  · intro h
    simp only [enqueueList, hlast]
    rcases h with h | h
    · simp [h]
    · simp [h]
  · intro h1 h2 h3
    simp only [enqueueList, hlast, hdrop]
    simp [h1, h2, h3]
  · intro h1 h2 h3
    simp only [enqueueList, hlast]
    simp [h1, h2, h3]

/-- Witness for C1 at concrete records: the extended record (identity 1,
derived from identity 0) replaces its queued base record in place. -/
theorem enqueue_coalescing_witness :
    enqueueList ⟨1, some 0, .attributes, 5, some "id", none, some "x"⟩
        [⟨0, none, .attributes, 5, some "id", none, none⟩] =
      [⟨1, some 0, .attributes, 5, some "id", none, some "x"⟩] :=
  (enqueue_coalescing_spec ⟨1, some 0, .attributes, 5, some "id", none, some "x"⟩
      ⟨0, none, .attributes, 5, some "id", none, none⟩ []).2.2.1
    (by decide) (by decide) (by decide)

/-- C7: takeRecords returns the entire queue (in order) and leaves it empty;
a second consecutive call returns the empty sequence; an enqueue after the
drain lands in the fresh queue (producing [record]), not in the returned
sequence, which stays the pre-drain contents. -/
theorem takeRecords_drain_spec (oid : Nat) (st : GlobalState) (record : MRecord) :
    (takeRecordsFn oid st).1 = st.recordsOf oid ∧
    ((takeRecordsFn oid st).2).recordsOf oid = [] ∧
    (takeRecordsFn oid ((takeRecordsFn oid st).2)).1 = [] ∧
    (enqueueRecord oid record ((takeRecordsFn oid st).2)).recordsOf oid = [record] := by
  refine ⟨rfl, ?_, ?_, ?_⟩ <;> simp [takeRecordsFn, enqueueRecord, upd, enqueueList]

/-- C8: for any registration for which the change is reportable, the record
builder hands it exactly one candidate record — the extended one when that
registration's own old-value option is set, the plain one otherwise. The
attribute conjunct needs only that registration's attribute reportability
(attributes watched and the filter passing), the character-data conjunct only
that character data is watched, so every reportable registration is covered,
whichever other kinds it does or does not watch. -/
theorem builder_exactly_one_spec (name : String) (namespaceURI : Option String)
    (recA rwovA recC rwovC : MRecord) (o : Options) :
    (o.attributes = true → attrFilterMiss o name namespaceURI = false →
      attrCallback name namespaceURI recA rwovA o =
        some (if o.attributeOldValue = true then rwovA else recA)) ∧
    (o.characterData = true →
      charDataCallback recC rwovC o =
        some (if o.characterDataOldValue = true then rwovC else recC)) := by
  constructor
  · intro hAttr hPass
    cases h : o.attributeOldValue <;> simp [attrCallback, hAttr, hPass, h]
  · intro hCD
    cases h : o.characterDataOldValue <;> simp [charDataCallback, hCD, h]

/-- Witness for C8 at an attributes-only registration (character data not
watched) and a character-data-only registration (attributes not watched):
each gets exactly the variant its own options dictate. -/
theorem builder_exactly_one_witness :
    attrCallback "id" none recW scenarioRec attrsOnlyOptions = some recW ∧
    charDataCallback recW scenarioRec charDataOnlyOptions = some scenarioRec :=
  ⟨((builder_exactly_one_spec "id" none recW scenarioRec recW scenarioRec
      attrsOnlyOptions).1 rfl (by decide)).trans (by rfl),
   ((builder_exactly_one_spec "id" none recW scenarioRec recW scenarioRec
      charDataOnlyOptions).2 rfl).trans (by rfl)⟩

/-- C10: for an attribute ADDITION the extended record carries oldValue null,
not the event's prevValue; the event's prevValue is used exactly for
modification and removal changes. -/
theorem attr_addition_oldValue_spec (freshId target : Nat) (name : String)
    (namespaceURI : Option String) (change : AttrChangeKind) (prevValue : String) :
    (change = .addition →
      (mkAttrRecordPair freshId target name namespaceURI change prevValue).2.oldValue = none) ∧
    (change ≠ .addition →
      (mkAttrRecordPair freshId target name namespaceURI change prevValue).2.oldValue
        = some prevValue) := by
  cases change <;> simp [mkAttrRecordPair]

/-- Witness for C10: a concrete addition yields oldValue = none, a concrete
modification yields the event's prevValue. -/
theorem attr_addition_oldValue_witness :
    (mkAttrRecordPair 0 3 "id" none .addition "old").2.oldValue = none ∧
    (mkAttrRecordPair 0 3 "id" none .modification "old").2.oldValue = some "old" :=
  ⟨(attr_addition_oldValue_spec 0 3 "id" none .addition "old").1 rfl,
   (attr_addition_oldValue_spec 0 3 "id" none .modification "old").2 (by decide)⟩

/-- C4: observe fails with the configuration error exactly when the options
violate the §3 invariants; the check precedes every state change, so on
failure no new state is produced — no registration is installed and the
previous state (options and listener wiring included) stands. -/
theorem observe_config_error_spec (oid target : Nat) (o : Options) (st : GlobalState) :
    observeFn oid target o st = .error () ↔
      ((o.attributes = false ∧ o.characterData = false ∧ o.childList = false) ∨
       (o.attributeOldValue = true ∧ o.attributes = false) ∨
       ((∃ fl, o.attributeFilter = some fl ∧ fl ≠ []) ∧ o.attributes = false) ∨
       (o.characterDataOldValue = true ∧ o.characterData = false)) := by
  have herr : observeFn oid target o st = .error () ↔ invalidOptions o = true := by
    constructor
    · intro h
      by_contra hno
      have hv : invalidOptions o = false := by
        cases hx : invalidOptions o
        · rfl
        · exact absurd hx hno
      rw [observeFn, hv] at h
      simp only [Bool.false_eq_true, if_false] at h
      cases hrf : replaceOrFind oid o (regsAt st target) with
      | none => rw [hrf] at h; exact Except.noConfusion h
      | some pr => obtain ⟨r0, rs0⟩ := pr; rw [hrf] at h; exact Except.noConfusion h
    · intro h
      simp [observeFn, h]
  rw [herr]
  obtain ⟨cl, attrs, cd, sub, aov, cdov, af⟩ := o
  cases af with
  | none =>
    simp only [invalidOptions, filterNonempty]
    cases cl <;> cases attrs <;> cases cd <;> cases aov <;> cases cdov <;> simp
  | some fl =>
    simp only [invalidOptions, filterNonempty]
    cases hfl : fl.length == 0 with
    | true =>
      have : fl = [] := by
        have := (beq_iff_eq).mp hfl
        exact List.length_eq_zero.mp this
      subst this
      cases cl <;> cases attrs <;> cases cd <;> cases aov <;> cases cdov <;> simp
    | false =>
      have hne : fl ≠ [] := by
        intro hc; subst hc; simp at hfl
      have hb : (fl.length != 0) = true := by
        simp [bne, hfl]
      rw [hb]
      cases cl <;> cases attrs <;> cases cd <;> cases aov <;> cases cdov <;> simp [hne]

/-- C5: with a non-empty attributeFilter, under options that observe accepts,
the attribute builder yields a record iff the changed attribute's local name
or its namespace URI is in the filter; concretely, with filter ["id"] a change
to "class" yields no record and a change to "id" yields one. -/
theorem attr_filter_spec (name : String) (namespaceURI : Option String)
    (recA rwovA : MRecord) (o : Options) (fl : List String)
    (hval : invalidOptions o = false) (hfl : o.attributeFilter = some fl) (hne : fl ≠ []) :
    ((attrCallback name namespaceURI recA rwovA o).isSome = true ↔
      (name ∈ fl ∨ ∃ ns, namespaceURI = some ns ∧ ns ∈ fl)) ∧
    attrCallback "class" none recA rwovA idFilterOptions = none ∧
    (attrCallback "id" none recA rwovA idFilterOptions).isSome = true := by
  have hnelen : (fl.length != 0) = true := by
    simp [hne]
  have hattrs : o.attributes = true := by
    cases hA : o.attributes
    · simp [invalidOptions, filterNonempty, hfl, hnelen, hA] at hval
    · rfl
  refine ⟨?_, by simp [attrCallback, idFilterOptions, attrFilterMiss], by simp [attrCallback, idFilterOptions, attrFilterMiss]⟩
  cases hm : attrFilterMiss o name namespaceURI with
  | true =>
    have : (attrCallback name namespaceURI recA rwovA o) = none := by
      simp [attrCallback, hattrs, hm]
    rw [this]
    simp only [Option.isSome_none, Bool.false_eq_true, false_iff]
    rintro (hmem | ⟨ns, hns, hmem⟩)
    · simp [attrFilterMiss, hfl, hnelen, hmem] at hm
    · subst hns
      simp [attrFilterMiss, hfl, hnelen, hmem] at hm
  | false =>
    have : (attrCallback name namespaceURI recA rwovA o).isSome = true := by
      cases ha : o.attributeOldValue <;> simp [attrCallback, hattrs, hm, ha]
    rw [this]
    simp only [true_iff]
    by_contra hcon
    push_neg at hcon
    obtain ⟨h1, h2⟩ := hcon
    cases namespaceURI with
    | none => simp [attrFilterMiss, hfl, hnelen, h1] at hm
    | some ns =>
      have h3 : ns ∉ fl := by
        intro hmem
        exact h2 ns rfl hmem
      simp [attrFilterMiss, hfl, hnelen, h1, h3] at hm

/-- Witness for C5: filter ["id"], namespace "ns" not in the filter, name "id"
in it — the builder yields a record. -/
theorem attr_filter_witness :
    ((attrCallback "id" (some "ns") recW scenarioRec idFilterOptions).isSome = true) ∧
    (attrCallback "class" none recW scenarioRec idFilterOptions = none) := by
  have h := attr_filter_spec "id" (some "ns") recW scenarioRec idFilterOptions ["id"]
    (by decide) rfl (by decide)
  exact ⟨h.1.mpr (Or.inl (by decide)), h.2.1⟩

/-- C3: in the ancestor walk, a registration at a visited node is skipped
unless the node is the dispatch target or its subtree option is set; a
non-skipped registration gets the builder invoked on its options, and a
returned record is enqueued on its observer. Concretely, on the two-node tree
(node 1 the parent of node 2) with observer 0 registered on node 1, an
attribute change on node 2 enqueues nothing when subtree is false and enqueues
the plain record when subtree is true. -/
theorem dispatch_subtree_spec (cb : Options → Option MRecord) (target node : Nat)
    (r : Registration) (st : GlobalState) (h : tableGet st.table node = some [r]) :
    (node ≠ target → r.options.subtree = false → processNode cb target node st = st) ∧
    (node = target ∨ r.options.subtree = true →
      processNode cb target node st =
        (match cb r.options with
         | some record => enqueueRecord r.observer record st
         | none => st)) ∧
    (dispatchFrom scenarioParent scenarioCb 2 2 1 (scenarioState false)).recordsOf 0 = [] ∧
    (dispatchFrom scenarioParent scenarioCb 2 2 1 (scenarioState true)).recordsOf 0
      = [scenarioRec] := by
  refine ⟨?_, ?_, by decide, by decide⟩
  · intro hne hsub
    simp [processNode, h, hne, hsub]
  · intro hor
    have hcond : (node != target && !r.options.subtree) = false := by
      rcases hor with hor | hor <;> simp [hor]
    simp only [processNode, h, List.foldl_cons, List.foldl_nil, hcond,
      Bool.false_eq_true, if_false]

/-- Witness for C3: at the concrete scenario state, observer 0's registration
on node 1 with subtree off is skipped when the target is node 2. -/
theorem dispatch_subtree_witness :
    processNode scenarioCb 2 1 (scenarioState false) = scenarioState false :=
  (dispatch_subtree_spec scenarioCb 2 1 (scenarioReg false) (scenarioState false)
      (by decide)).1 (by decide) (by decide)

/-- C9 evaluated at its failing input: observer 0 observes node 1 with
attributes watched; addListeners attaches the DOMAttrModified listener keyed
by the Registration object, but disconnect's removeListeners passes
this.observer to removeEventListener, so the listener survives the
disconnect — the round trip does not restore the node's listener set. -/
theorem listener_roundtrip_bug :
    ∃ st1, observeFn 0 1 attrsOnlyOptions emptyState = .ok st1 ∧
      st1.listeners 1 = [⟨"DOMAttrModified", .regKey 0, true⟩] ∧
      (disconnectFn 0 st1).listeners 1 = [⟨"DOMAttrModified", .regKey 0, true⟩] := by
  refine ⟨_, rfl, ?_, ?_⟩ <;> rfl

theorem tableGet_tableSet_same (t : List (Nat × List Registration)) (n : Nat)
    (v : List Registration) : tableGet (tableSet t n v) n = some v := by
  induction t with
  | nil => simp [tableGet, tableSet]
  | cons p rest ih =>
    by_cases h : p.1 = n
    · simp [tableSet, tableGet, h]
    · simp [tableSet, tableGet, h, ih]

theorem tableGet_tableSet_ne (t : List (Nat × List Registration)) (n m : Nat)
    (v : List Registration) (h : m ≠ n) : tableGet (tableSet t n v) m = tableGet t m := by
  induction t with
  | nil =>
    have h' : n ≠ m := fun hc => h hc.symm
    simp [tableGet, tableSet, h']
  | cons p rest ih =>
    by_cases hp : p.1 = n
    · subst hp
      have h' : p.1 ≠ m := fun hc => h hc.symm
      simp [tableSet, tableGet, h', ih]
    · simp [tableSet, tableGet, hp, ih]

theorem mem_tableSet (t : List (Nat × List Registration)) (n : Nat) (v : List Registration)
    (p : Nat × List Registration) (h : p ∈ tableSet t n v) : p ∈ t ∨ p = (n, v) := by
  induction t with
  | nil =>
    simp [tableSet] at h
    right; exact h
  | cons q rest ih =>
    by_cases hq : q.1 = n
    · simp only [tableSet, if_pos hq, List.mem_cons] at h
      rcases h with h | h
      · right; exact h
      · left; exact List.mem_cons_of_mem _ h
    · simp only [tableSet, if_neg hq, List.mem_cons] at h
      rcases h with h | h
      · left; rw [h]; exact List.mem_cons_self q rest
      · rcases ih h with h2 | h2
        · left; exact List.mem_cons_of_mem _ h2
        · right; exact h2

theorem tableGet_mem (t : List (Nat × List Registration)) (n : Nat)
    (regs : List Registration) (h : tableGet t n = some regs) : (n, regs) ∈ t := by
  induction t with
  | nil => simp [tableGet] at h
  | cons p rest ih =>
    rw [tableGet] at h
    by_cases hp : p.1 = n
    · rw [if_pos hp] at h
      injection h with h
      have hpe : p = (n, regs) := by
        obtain ⟨p1, p2⟩ := p
        simp only at hp h
        rw [hp, h]
      rw [← hpe]
      exact List.mem_cons_self _ _
    · rw [if_neg hp] at h
      exact List.mem_cons_of_mem _ (ih h)

theorem removeFirstObs_fst_none (oid : Nat) (regs : List Registration)
    (h : (removeFirstObs oid regs).1 = none) : (removeFirstObs oid regs).2 = regs := by
  induction regs with
  | nil => rfl
  | cons r rs ih =>
    by_cases hr : r.observer = oid
    · simp [removeFirstObs, hr] at h
    · simp only [removeFirstObs, if_neg hr] at h ⊢
      rw [ih h]

theorem removeFirstObs_snd_sublist (oid : Nat) (regs : List Registration) :
    ((removeFirstObs oid regs).2).Sublist regs := by
  induction regs with
  | nil => exact List.Sublist.refl _
  | cons r rs ih =>
    by_cases hr : r.observer = oid
    · simp only [removeFirstObs, if_pos hr]
      exact List.sublist_cons_self r rs
    · simp only [removeFirstObs, if_neg hr]
      exact ih.cons₂ r

theorem removeFirstObs_snd_of_nodup (oid : Nat) (regs : List Registration)
    (h : (regs.map (fun r => r.observer)).Nodup) :
    (removeFirstObs oid regs).2 = regs.filter (fun r => !(r.observer == oid)) := by
  induction regs with
  | nil => rfl
  | cons r rs ih =>
    rw [List.map_cons, List.nodup_cons] at h
    by_cases hr : r.observer = oid
    · simp only [removeFirstObs, if_pos hr, List.filter_cons]
      have hkeep : rs.filter (fun x => !(x.observer == oid)) = rs := by
        apply List.filter_eq_self.mpr
        intro a ha
        have : a.observer ≠ oid := by
          intro hc
          exact h.1 ((hc.trans hr.symm) ▸ List.mem_map_of_mem (fun x => x.observer) ha)
        simp [this]
      simp [hr, hkeep]
    · simp only [removeFirstObs, if_neg hr, List.filter_cons]
      have : (!(r.observer == oid)) = true := by simp [hr]
      simp only [this, if_pos]
      rw [ih h.2]

theorem addListenersFn_parts (r : Registration) (st : GlobalState) :
    (addListenersFn r st).table = st.table ∧
    (addListenersFn r st).nodesOf = st.nodesOf ∧
    (addListenersFn r st).recordsOf = st.recordsOf ∧
    (addListenersFn r st).nextRegId = st.nextRegId := by
  cases h1 : r.options.attributes <;> cases h2 : r.options.characterData <;>
    simp [addListenersFn, h1, h2]

theorem removeListenersFn_parts (r : Registration) (st : GlobalState) :
    (removeListenersFn r st).table = st.table ∧
    (removeListenersFn r st).nodesOf = st.nodesOf ∧
    (removeListenersFn r st).recordsOf = st.recordsOf ∧
    (removeListenersFn r st).nextRegId = st.nextRegId := by
  cases h1 : r.options.attributes <;> cases h2 : r.options.characterData <;>
    simp [removeListenersFn, h1, h2]

theorem disconnectNode_parts (oid n : Nat) (st : GlobalState) :
    (disconnectNode oid st n).nodesOf = st.nodesOf ∧
    (disconnectNode oid st n).recordsOf = st.recordsOf := by
  cases hg : tableGet st.table n with
  | none => simp [disconnectNode, hg]
  | some regs =>
    cases hf : (removeFirstObs oid regs).1 with
    | none => simp [disconnectNode, hg, hf]
    | some r =>
      simp only [disconnectNode, hg, hf]
      exact ⟨(removeListenersFn_parts r st).2.1, (removeListenersFn_parts r st).2.2.1⟩

theorem disconnectNode_table (oid n : Nat) (st : GlobalState) (m : Nat) :
    tableGet (disconnectNode oid st n).table m =
      (if m = n then (tableGet st.table n).map (fun regs => (removeFirstObs oid regs).2)
       else tableGet st.table m) := by
  cases hg : tableGet st.table n with
  | none =>
    by_cases hm : m = n
    · subst hm; simp [disconnectNode, hg]
    · simp [disconnectNode, hg, hm]
  | some regs =>
    cases hf : (removeFirstObs oid regs).1 with
    | none =>
      have h2 := removeFirstObs_fst_none oid regs hf
      by_cases hm : m = n
      · subst hm; simp [disconnectNode, hg, hf, h2]
      · simp [disconnectNode, hg, hf, hm]
    | some r =>
      have hproj : (disconnectNode oid st n).table
          = tableSet (removeListenersFn r st).table n (removeFirstObs oid regs).2 := by
        simp [disconnectNode, hg, hf]
      rw [hproj, (removeListenersFn_parts r st).1]
      by_cases hm : m = n
      · subst hm
        rw [tableGet_tableSet_same, if_pos rfl]
        simp [hg]
      · rw [tableGet_tableSet_ne _ _ _ _ hm, if_neg hm]

theorem TableInv_disconnectNode (oid n : Nat) (st : GlobalState) (h : TableInv st.table) :
    TableInv (disconnectNode oid st n).table := by
  cases hg : tableGet st.table n with
  | none =>
    have he : (disconnectNode oid st n).table = st.table := by simp [disconnectNode, hg]
    rw [he]; exact h
  | some regs =>
    cases hf : (removeFirstObs oid regs).1 with
    | none =>
      have he : (disconnectNode oid st n).table = st.table := by simp [disconnectNode, hg, hf]
      rw [he]; exact h
    | some r =>
      have hproj : (disconnectNode oid st n).table
          = tableSet st.table n (removeFirstObs oid regs).2 := by
        simp [disconnectNode, hg, hf, (removeListenersFn_parts r st).1]
      rw [hproj]
      intro p hp
      rcases mem_tableSet _ _ _ _ hp with hold | heq
      · exact h p hold
      · subst heq
        have hmem := tableGet_mem st.table n regs hg
        have hnd := h (n, regs) hmem
        exact hnd.sublist ((removeFirstObs_snd_sublist oid regs).map (fun x => x.observer))

theorem filter_obs_idem (oid : Nat) (l : List Registration) :
    (l.filter (fun r => !(r.observer == oid))).filter (fun r => !(r.observer == oid)) =
      l.filter (fun r => !(r.observer == oid)) := by
  simp [List.filter_filter]

theorem foldl_disconnectNode_parts (oid : Nat) (L : List Nat) (st : GlobalState) :
    (L.foldl (disconnectNode oid) st).nodesOf = st.nodesOf ∧
    (L.foldl (disconnectNode oid) st).recordsOf = st.recordsOf := by
  induction L generalizing st with
  | nil => exact ⟨rfl, rfl⟩
  | cons a L' ih =>
    rw [List.foldl_cons]
    refine ⟨(ih _).1.trans (disconnectNode_parts oid a st).1,
      (ih _).2.trans (disconnectNode_parts oid a st).2⟩

theorem foldl_TableInv_disconnectNode (oid : Nat) (L : List Nat) (st : GlobalState)
    (h : TableInv st.table) : TableInv ((L.foldl (disconnectNode oid) st).table) := by
  induction L generalizing st with
  | nil => exact h
  | cons a L' ih =>
    rw [List.foldl_cons]
    exact ih _ (TableInv_disconnectNode oid a st h)

theorem foldl_disconnectNode_table (oid : Nat) (L : List Nat) (st : GlobalState)
    (hinv : TableInv st.table) (m : Nat) :
    tableGet ((L.foldl (disconnectNode oid) st).table) m =
      (if m ∈ L then
        (tableGet st.table m).map (fun regs => regs.filter (fun r => !(r.observer == oid)))
       else tableGet st.table m) := by
  induction L generalizing st with
  | nil => simp
  | cons a L' ih =>
    rw [List.foldl_cons]
    have hinv' := TableInv_disconnectNode oid a st hinv
    rw [ih _ hinv']
    have hstep : ∀ k : Nat,
        tableGet (disconnectNode oid st a).table k =
          (if k = a then
            (tableGet st.table a).map (fun regs => regs.filter (fun r => !(r.observer == oid)))
           else tableGet st.table k) := by
      intro k
      rw [disconnectNode_table]
      by_cases hk : k = a
      · subst hk
        rw [if_pos rfl, if_pos rfl]
        cases hg : tableGet st.table k with
        | none => rfl
        | some regs =>
          have hnd := hinv (k, regs) (tableGet_mem st.table k regs hg)
          simp [removeFirstObs_snd_of_nodup oid regs hnd]
      · rw [if_neg hk, if_neg hk]
    by_cases hmL : m ∈ L'
    · rw [if_pos hmL, if_pos (List.mem_cons_of_mem a hmL), hstep m]
      by_cases hma : m = a
      · subst hma
        rw [if_pos rfl]
        cases hg : tableGet st.table m with
        | none => rfl
        | some regs => simp [filter_obs_idem]
      · rw [if_neg hma]
    · rw [if_neg hmL, hstep m]
      by_cases hma : m = a
      · subst hma
        rw [if_pos rfl, if_pos (List.mem_cons_self m L')]
      · rw [if_neg hma, if_neg (by simp [hma, hmL])]

/-- C2 as stated is false on the code at a concrete input: with observer 0
registered on node 1 (and a queued record), disconnect leaves the observer's
node list holding node 1 — the source resets records_ but never clears
nodes_. -/
theorem disconnect_counterexample :
    (disconnectFn 0 stW).nodesOf 0 = [1] ∧ ¬((disconnectFn 0 stW).nodesOf 0 = []) := by
  constructor <;> decide

/-- C2 (amended): under the at-most-one-registration-per-observer invariant,
disconnect removes exactly this observer's own registration from each node in
its node list (every other observer's registrations there survive, in order),
leaves every other node's registration list untouched, and clears this
observer's record queue (other observers' queues untouched); the observer's
node list is NOT cleared — it is left exactly as it was. -/
theorem disconnect_amended_spec (oid : Nat) (st : GlobalState) (hinv : TableInv st.table) :
    (∀ n ∈ st.nodesOf oid,
      tableGet (disconnectFn oid st).table n =
        (tableGet st.table n).map (fun regs => regs.filter (fun r => !(r.observer == oid)))) ∧
    (∀ n, n ∉ st.nodesOf oid → tableGet (disconnectFn oid st).table n = tableGet st.table n) ∧
    (disconnectFn oid st).recordsOf oid = [] ∧
    (disconnectFn oid st).nodesOf = st.nodesOf ∧
    (∀ oid2, oid2 ≠ oid → (disconnectFn oid st).recordsOf oid2 = st.recordsOf oid2) := by
  have hfold := foldl_disconnectNode_table oid (st.nodesOf oid) st hinv
  have hparts := foldl_disconnectNode_parts oid (st.nodesOf oid) st
  refine ⟨?_, ?_, ?_, ?_, ?_⟩
  · intro n hn
    show tableGet (((st.nodesOf oid).foldl (disconnectNode oid) st).table) n = _
    rw [hfold n, if_pos hn]
  · intro n hn
    show tableGet (((st.nodesOf oid).foldl (disconnectNode oid) st).table) n = _
    rw [hfold n, if_neg hn]
  · show upd (((st.nodesOf oid).foldl (disconnectNode oid) st).recordsOf) oid [] oid = []
    exact upd_same _ _ _
  · show ((st.nodesOf oid).foldl (disconnectNode oid) st).nodesOf = st.nodesOf
    exact hparts.1
  · intro oid2 h2
    show upd (((st.nodesOf oid).foldl (disconnectNode oid) st).recordsOf) oid [] oid2 = _
    rw [upd_ne _ _ _ h2, hparts.2]

/-- Witness for C2's amended theorem at the concrete two-observer state:
disconnecting observer 0 leaves exactly observer 1's registration on node 1
and empties observer 0's queue. -/
theorem disconnect_amended_witness :
    tableGet (disconnectFn 0 stW).table 1 = some [regW1] ∧
    (disconnectFn 0 stW).recordsOf 0 = [] := by
  have h := disconnect_amended_spec 0 stW (by decide)
  exact ⟨(h.1 1 (by decide)).trans (by decide), h.2.2.1⟩

theorem replaceOrFind_some (oid : Nat) (o : Options) (regs : List Registration)
    (r : Registration) (regs' : List Registration)
    (h : replaceOrFind oid o regs = some (r, regs')) :
    regs'.map (fun x => x.observer) = regs.map (fun x => x.observer) := by
  induction regs generalizing regs' with
  | nil => simp [replaceOrFind] at h
  | cons q rs ih =>
    by_cases hq : q.observer = oid
    · simp only [replaceOrFind, if_pos hq, Option.some.injEq, Prod.mk.injEq] at h
      obtain ⟨h1, h2⟩ := h
      rw [← h2]
      simp
    · simp only [replaceOrFind, if_neg hq] at h
      cases hrf : replaceOrFind oid o rs with
      | none => rw [hrf] at h; exact absurd h (by simp)
      | some pr =>
        obtain ⟨f, rs'⟩ := pr
        rw [hrf] at h
        simp only [Option.some.injEq, Prod.mk.injEq] at h
        obtain ⟨h1, h2⟩ := h
        rw [h1] at hrf
        rw [← h2]
        simp only [List.map_cons]
        rw [ih rs' hrf]

theorem replaceOrFind_none_not_mem (oid : Nat) (o : Options) (regs : List Registration)
    (h : replaceOrFind oid o regs = none) : ∀ r ∈ regs, r.observer ≠ oid := by
  induction regs with
  | nil => intro r hr; simp at hr
  | cons q rs ih =>
    by_cases hq : q.observer = oid
    · simp [replaceOrFind, hq] at h
    · simp only [replaceOrFind, if_neg hq] at h
      cases hrf : replaceOrFind oid o rs with
      | some pr =>
        obtain ⟨f, rs'⟩ := pr
        rw [hrf] at h
        exact absurd h (by simp)
      | none =>
        intro r hr
        rcases List.mem_cons.mp hr with h1 | h1
        · rw [h1]; exact hq
        · exact ih hrf r h1

theorem replaceOrFind_isSome_of_mem (oid : Nat) (o : Options) (regs : List Registration)
    (hex : ∃ r ∈ regs, r.observer = oid) :
    ∃ pr, replaceOrFind oid o regs = some pr := by
  cases hrf : replaceOrFind oid o regs with
  | some pr => exact ⟨pr, rfl⟩
  | none =>
    obtain ⟨r, hr, ho⟩ := hex
    exact absurd ho (replaceOrFind_none_not_mem oid o regs hrf r hr)

theorem regsAt_nodup (st : GlobalState) (hinv : TableInv st.table) (n : Nat) :
    ((regsAt st n).map (fun r => r.observer)).Nodup := by
  cases hg : tableGet st.table n with
  | none => simp [regsAt, hg]
  | some regs =>
    have h := hinv (n, regs) (tableGet_mem st.table n regs hg)
    simpa [regsAt, hg] using h

theorem observeFn_ok (oid target : Nat) (o : Options) (st st' : GlobalState)
    (h : observeFn oid target o st = .ok st') :
    invalidOptions o = false ∧
    ((∃ r regs', replaceOrFind oid o (regsAt st target) = some (r, regs') ∧
        st'.table = tableSet st.table target regs' ∧ st'.nodesOf = st.nodesOf) ∨
     (replaceOrFind oid o (regsAt st target) = none ∧
        st'.table = tableSet st.table target
          (regsAt st target ++ [⟨oid, target, o, st.nextRegId⟩]) ∧
        st'.nodesOf = upd st.nodesOf oid (st.nodesOf oid ++ [target]))) := by
  cases hv : invalidOptions o with
  | true => rw [observeFn, hv] at h; simp at h
  | false =>
    rw [observeFn, hv] at h
    simp only [Bool.false_eq_true, if_false] at h
    refine ⟨rfl, ?_⟩
    cases hrf : replaceOrFind oid o (regsAt st target) with
    | some pr =>
      obtain ⟨r0, regs'⟩ := pr
      rw [hrf] at h
      simp only [Except.ok.injEq] at h
      rw [← h]
      left
      refine ⟨r0, regs', rfl, ?_, ?_⟩
      · exact (addListenersFn_parts _ _).1.trans
          (congrArg (fun t => tableSet t target regs') (removeListenersFn_parts r0 st).1)
      · exact (addListenersFn_parts _ _).2.1.trans (removeListenersFn_parts r0 st).2.1
    | none =>
      rw [hrf] at h
      simp only [Except.ok.injEq] at h
      rw [← h]
      right
      exact ⟨rfl, (addListenersFn_parts _ _).1, (addListenersFn_parts _ _).2.1⟩

/-- C6: the at-most-one-Registration-per-(observer, node) property is an
invariant — preserved by every successful observe and by disconnect — and a
repeat observe from an observer already registered on the target replaces the
registration's options in place: the target's registration-list length and the
observer's node list are unchanged across the call. -/
theorem observe_no_duplicate_spec (oid target : Nat) (o : Options) (st : GlobalState)
    (hinv : TableInv st.table) :
    (∀ st', observeFn oid target o st = .ok st' → TableInv st'.table) ∧
    TableInv (disconnectFn oid st).table ∧
    ((∃ r ∈ regsAt st target, r.observer = oid) →
      ∀ st', observeFn oid target o st = .ok st' →
        (regsAt st' target).length = (regsAt st target).length ∧
        st'.nodesOf oid = st.nodesOf oid) := by
  refine ⟨?_, ?_, ?_⟩
  · intro st' h
    obtain ⟨hv, hcase⟩ := observeFn_ok oid target o st st' h
    rcases hcase with ⟨r0, regs', hrf, htab, _⟩ | ⟨hrf, htab, _⟩
    · rw [htab]
      intro p hp
      rcases mem_tableSet _ _ _ _ hp with hold | heq
      · exact hinv p hold
      · rw [heq]
        show (regs'.map (fun r => r.observer)).Nodup
        rw [replaceOrFind_some oid o (regsAt st target) r0 regs' hrf]
        exact regsAt_nodup st hinv target
    · rw [htab]
      intro p hp
      rcases mem_tableSet _ _ _ _ hp with hold | heq
      · exact hinv p hold
      · rw [heq]
        show (((regsAt st target ++ [(⟨oid, target, o, st.nextRegId⟩ : Registration)]).map
          (fun r : Registration => r.observer))).Nodup
        rw [List.map_append]
        rw [List.nodup_append]
        refine ⟨regsAt_nodup st hinv target, by simp, ?_⟩
        intro a ha hb
        simp only [List.map_cons, List.map_nil, List.mem_singleton] at hb
        obtain ⟨r, hr, ho⟩ := List.mem_map.mp ha
        exact replaceOrFind_none_not_mem oid o (regsAt st target) hrf r hr
          (ho.trans hb)
  · show TableInv (((st.nodesOf oid).foldl (disconnectNode oid) st).table)
    exact foldl_TableInv_disconnectNode oid _ st hinv
  · intro hex st' h
    obtain ⟨hv, hcase⟩ := observeFn_ok oid target o st st' h
    rcases hcase with ⟨r0, regs', hrf, htab, hnodes⟩ | ⟨hrf, _, _⟩
    · have hreg : regsAt st' target = regs' := by
        simp [regsAt, htab, tableGet_tableSet_same]
      have hmap := replaceOrFind_some oid o (regsAt st target) r0 regs' hrf
      have hlen : regs'.length = (regsAt st target).length := by
        have h2 := congrArg List.length hmap
        simpa using h2
      exact ⟨hreg ▸ hlen, congrFun hnodes oid⟩
    · obtain ⟨pr, hpr⟩ := replaceOrFind_isSome_of_mem oid o (regsAt st target) hex
      rw [hpr] at hrf
      exact absurd hrf (by simp)

/-- Witness for C6: re-observe of observer 0 on node 1 (where observers 0 and
1 both hold registrations) keeps the node's registration-list length at 2 and
observer 0's node list at [1]. -/
theorem observe_no_duplicate_witness :
    ∃ st', observeFn 0 1 attrsOnlyOptions stW = Except.ok st' ∧
      (regsAt st' 1).length = 2 ∧ st'.nodesOf 0 = [1] := by
  refine ⟨_, rfl, ?_⟩
  have h := (observe_no_duplicate_spec 0 1 attrsOnlyOptions stW (by decide)).2.2
    (by decide) _ rfl
  exact ⟨h.1.trans (by decide), h.2.trans (by decide)⟩

end MutationObservers
